import Mathlib

/-!
Verification of the gptrepl session engine against its specification.

The development shallowly embeds the Go sources:
  * `Message`, `App` state and the context-mutation primitives from `main.go`
    (`appendToContext`, `popFromContext`, `tryUpdateAutosaveFile`),
  * the retry/backoff loop `sendContextAndProcessResponse` and the stream
    drain `printAndCollectStream` from `main.go`,
  * the command handlers from the command file (`appendCommand`,
    `prependCommand`, `clearCommand`, `replaceFromCommand`,
    `appendFromCommand`, `prependFromCommand`, `escapeCommand`,
    `sendCommand`, `nanoSendCommand`),
  * the persistence adapter from `util.go` (`parseContextFile`,
    `writeContextFile`, `isRoleValid`).

Modelling conventions:
  * The autosave file side effect is made observable as a trace of write
    attempts (`writes` field); each entry records the path and the context
    snapshot handed to the file writer.
  * Files hold parsed JSON documents (`Json`); a missing/unreadable or
    syntactically malformed file is `none`.  `encodeMessage`/`decodeMessage`
    mirror Go's `encoding/json` behaviour on the `Message` struct (missing
    or null fields decode to the zero value "", non-string field values are
    a type error, the last duplicate key wins; the decoder's case-insensitive
    key fallback is not modelled, all keys of interest are lower case).
  * A delta channel is a finite list; reaching the end of the list models
    the producer closing the channel.
  * The completion API is an oracle `send : List Message → Nat → Except ...`
    giving the establishment outcome of each attempt on a given context, and
    the jitter source `rand.Float64()` is an oracle `rnd : Nat → ℚ`
    (per failed attempt), so `rand.Float64()/3` becomes `rnd k / 3`.
    Waits are rationals measured in seconds (the spec's time unit).
-/

namespace Gptrepl

/-- Go struct `Message` (main.go). -/
structure Message where
  role : String
  content : String
deriving DecidableEq, Repr

/-- `isRoleValid` (util.go). -/
def isRoleValid (role : String) : Bool :=
  role = "user" || role = "assistant" || role = "system"

/-- The `err` field of a `CompletionDelta`: `nil`, `io.EOF`, or another error. -/
inductive DeltaErr where
  | ok
  | eof
  | fail (msg : String)
deriving DecidableEq, Repr

/-- Go struct `CompletionDelta` (main.go / completion_api.go). -/
structure CompletionDelta where
  delta : String
  err : DeltaErr
deriving DecidableEq, Repr

/-- Parsed JSON documents, the content of context files. -/
inductive Json where
  | null
  | bool (b : Bool)
  | num (n : Int)
  | str (s : String)
  | arr (elems : List Json)
  | obj (fields : List (String × Json))

/-- Field lookup as Go's `encoding/json` decoder performs it on a struct:
every occurrence of the key overwrites the field, so the last one wins. -/
def jsonLookupField (fields : List (String × Json)) (key : String) : Option Json :=
  (fields.filterMap (fun p => if p.1 = key then some p.2 else none)).getLast?

/-- Decoding a JSON value into a Go `string` struct field: absent and `null`
leave the zero value `""`; any non-string value is a type error. -/
def decodeStringField : Option Json → Except String String
  | Option.none => .ok ""
  | some Json.null => .ok ""
  | some (Json.str s) => .ok s
  | some _ => .error "cannot unmarshal value into field of type string"

/-- `json.Unmarshal` of one array element into `Message`. -/
def decodeMessage : Json → Except String Message
  | Json.obj fields => do
    let role ← decodeStringField (jsonLookupField fields "role")
    let content ← decodeStringField (jsonLookupField fields "content")
    pure ⟨role, content⟩
  | Json.null => .ok ⟨"", ""⟩
  | _ => .error "cannot unmarshal value into Message"

/-- `json.Unmarshal` of a document into `[]Message`. -/
def decodeContext : Json → Except String (List Message)
  | Json.arr elems => elems.mapM decodeMessage
  | Json.null => .ok []
  | _ => .error "cannot unmarshal value into slice of Message"

/-- Errors of `parseContextFile` and the file-reading commands. -/
inductive ContextFileError where
  | ioError (path : String)
  | jsonError (msg : String)
  | invalidRole (path : String) (idx : Nat)
  | missingArgument
deriving DecidableEq, Repr

/-- The role-validation loop of `parseContextFile` (util.go): index of the
first message whose role is invalid, counting from `idx`. -/
def firstInvalidRole : Nat → List Message → Option Nat
  | _, [] => Option.none
  | idx, msg :: rest =>
    if isRoleValid msg.role then firstInvalidRole (idx + 1) rest else some idx

/-- `parseContextFile` (util.go): read the file, unmarshal it, then reject
the first entry with an invalid role, reporting its zero-based index. -/
def parseContextFile (fs : String → Option Json) (path : String) :
    Except ContextFileError (List Message) :=
  match fs path with
  | Option.none => .error (.ioError path)
  | some doc =>
    match decodeContext doc with
    | .error e => .error (.jsonError e)
    | .ok msgs =>
      match firstInvalidRole 0 msgs with
      | some idx => .error (.invalidRole path idx)
      | Option.none => .ok msgs

/-- `json.MarshalIndent` of one `Message`. -/
def encodeMessage (m : Message) : Json :=
  .obj [("role", .str m.role), ("content", .str m.content)]

/-- `json.MarshalIndent` of a `[]Message` document. -/
def encodeContext (context : List Message) : Json :=
  .arr (context.map encodeMessage)

/-- `writeContextFile` (util.go): serialize the context and store it at
`path`, returning the updated file system. -/
def writeContextFile (fs : String → Option Json) (path : String)
    (context : List Message) : String → Option Json :=
  fun p => if p = path then some (encodeContext context) else fs p

/-- The fields of Go struct `App` (main.go) the session engine mutates,
plus the observable trace of autosave write attempts. -/
structure AppState where
  context : List Message
  model : String
  forgetful : Bool
  maxRetries : Nat
  autosaveFilePath : String
  writes : List (String × List Message)
deriving DecidableEq, Repr

/-- `tryUpdateAutosaveFile` (main.go): when a path is configured, attempt to
write the current context there (recorded on the `writes` trace). -/
def tryUpdateAutosaveFile (s : AppState) : AppState :=
  if s.autosaveFilePath = "" then s
  else { s with writes := s.writes ++ [(s.autosaveFilePath, s.context)] }

/-- `appendToContext` (main.go). -/
def appendToContext (s : AppState) (msg : Message) : AppState :=
  tryUpdateAutosaveFile { s with context := s.context ++ [msg] }

/-- `popFromContext` (main.go): reject `n < 1` and `n > len(context)`
without mutating; otherwise truncate the last `n` entries and refresh the
autosave mirror. -/
def popFromContext (s : AppState) (n : Int) : AppState × Option String :=
  if n < 1 then (s, some "n must be at least 1")
  else if (s.context.length : Int) < n then
    (s, some "cannot pop more elements than the context contains")
  else
    (tryUpdateAutosaveFile
      { s with context := s.context.take (s.context.length - n.toNat) },
     Option.none)

/-- The accumulator loop of `printAndCollectStream` (main.go): a closed
channel (`[]`) or an `io.EOF` delta ends the stream cleanly with the text
collected so far; any other error aborts with that error and no text. -/
def collectStream (acc : String) : List CompletionDelta → Except String String
  | [] => .ok acc
  | d :: rest =>
    match d.err with
    | .eof => .ok acc
    | .fail e => .error e
    | .ok => collectStream (acc ++ d.delta) rest

/-- `printAndCollectStream` (main.go). -/
def printAndCollectStream (stream : List CompletionDelta) : Except String String :=
  collectStream "" stream

/-- Concatenation of the text fragments of a delta list, in arrival order. -/
def concatDeltas : List CompletionDelta → String
  | [] => ""
  | d :: rest => d.delta ++ concatDeltas rest

/-- The duration, in seconds, actually slept by
`time.Sleep(time.Duration(waitTime) * time.Second)` (main.go): converting
the `float64` `waitTime` to `time.Duration` truncates toward zero, so the
program waits a whole number of seconds (the floor, since `waitTime` is
never negative in the loop). -/
def sleptSeconds (waitTime : ℚ) : ℚ :=
  if 0 ≤ waitTime then ((⌊waitTime⌋ : ℤ) : ℚ) else ((⌈waitTime⌉ : ℤ) : ℚ)

/-- Result of the retry loop of `sendContextAndProcessResponse`:
how many times `SendContext` was called, the sequence of durations slept
between attempts (in seconds, whole by truncation), and the outcome of the
last attempt. -/
structure RetryResult where
  calls : Nat
  sleeps : List ℚ
  outcome : Except String (List CompletionDelta)
deriving Repr

/-- The `for retries >= 0` loop of `sendContextAndProcessResponse`
(main.go): attempt establishment; on failure with remaining budget, sleep
`time.Duration(waitTime)` seconds (the truncation of `waitTime`), then
double `waitTime` and add the fresh jitter before the next attempt.
`out k` is the outcome of attempt `k`, `jitter k` the jitter drawn after
attempt `k` fails. -/
def sendWithRetries (out : Nat → Except String (List CompletionDelta))
    (jitter : Nat → ℚ) : Nat → Nat → ℚ → RetryResult
  | retries, attempt, waitTime =>
    match out attempt with
    | .ok stream => ⟨attempt + 1, [], .ok stream⟩
    | .error e =>
      match retries with
      | 0 => ⟨attempt + 1, [], .error e⟩
      | r + 1 =>
        let rest := sendWithRetries out jitter r (attempt + 1)
          (2 * waitTime + jitter attempt)
        ⟨rest.calls, sleptSeconds waitTime :: rest.sleeps, rest.outcome⟩

/-- Result of one full exchange. -/
structure SendResult where
  calls : Nat
  sleeps : List ℚ
  result : Except String String
deriving Repr

/-- `sendContextAndProcessResponse` (main.go): retry establishment with
`maxRetries` budget, initial wait 1 second and multiplier 2, then drain the
stream of the successful attempt exactly once (a mid-stream error is the
terminal error of the exchange, never retried). -/
def sendContextAndProcessResponse
    (send : List Message → Nat → Except String (List CompletionDelta))
    (rnd : Nat → ℚ) (maxRetries : Nat) (context : List Message) : SendResult :=
  let r := sendWithRetries (send context) (fun k => rnd k / 3) maxRetries 0 1
  match r.outcome with
  | .error e => ⟨r.calls, r.sleeps, .error ("failed to send context: " ++ e)⟩
  | .ok stream =>
    match printAndCollectStream stream with
    | .error e => ⟨r.calls, r.sleeps, .error ("stream error: " ++ e)⟩
    | .ok content => ⟨r.calls, r.sleeps, .ok content⟩

/-- Split a character list at the first space, when one occurs. -/
def cutSpaceAux : List Char → Option (List Char × List Char)
  | [] => Option.none
  | c :: rest =>
    if c = ' ' then some ([], rest)
    else
      match cutSpaceAux rest with
      | Option.none => Option.none
      | some (before, after) => some (c :: before, after)

/-- `strings.Cut(s, " ")`: the part before the first space and the part
after it (empty when there is no space). -/
def stringCutSpace (s : String) : String × String :=
  match cutSpaceAux s.data with
  | Option.none => (s, "")
  | some (b, a) => (⟨b⟩, ⟨a⟩)

/-- `strings.TrimSpace`: remove leading and trailing whitespace. -/
def trimString (s : String) : String :=
  ⟨((s.data.dropWhile Char.isWhitespace).reverse.dropWhile
      Char.isWhitespace).reverse⟩

/-- `parseSingleMessageFromArguments` (command file). -/
def parseSingleMessageFromArguments (args : String) :
    Except String (String × String) :=
  if args = "" then .error "expected two arguments"
  else
    let (role, msg) := stringCutSpace args
    if isRoleValid role then .ok (role, msg)
    else .error ("invalid role: " ++ role)

/-- `appendCommand` (command file): parse role and text, then append via
`appendToContext` (which refreshes the autosave mirror). -/
def appendCommand (s : AppState) (args : String) : AppState × Option String :=
  match parseSingleMessageFromArguments args with
  | .error e => (s, some e)
  | .ok (role, rawMsg) =>
    (appendToContext s ⟨role, trimString rawMsg⟩, Option.none)

/-- `prependCommand` (command file): parse role and text, then build the
new slice directly — note that it does not touch the autosave mirror. -/
def prependCommand (s : AppState) (args : String) : AppState × Option String :=
  match parseSingleMessageFromArguments args with
  | .error e => (s, some e)
  | .ok (role, rawMsg) =>
    ({ s with context := ⟨role, trimString rawMsg⟩ :: s.context }, Option.none)

/-- `clearCommand` (command file). -/
def clearCommand (s : AppState) (args : String) : AppState × Option String :=
  if args = "" then
    (tryUpdateAutosaveFile { s with context := [] }, Option.none)
  else (s, some "expected no arguments")

/-- `readContextFileFromArguments` (command file). -/
def readContextFileFromArguments (fs : String → Option Json) (args : String) :
    Except ContextFileError (List Message) :=
  if args = "" then .error .missingArgument
  else parseContextFile fs args

/-- `replaceFromCommand` (command file): assigns the parsed file to the
context directly, without an autosave refresh. -/
def replaceFromCommand (fs : String → Option Json) (s : AppState)
    (path : String) : AppState × Option ContextFileError :=
  match readContextFileFromArguments fs path with
  | .error e => (s, some e)
  | .ok ctx => ({ s with context := ctx }, Option.none)

/-- `appendFromCommand` (command file): splices the parsed file at the
back, without an autosave refresh. -/
def appendFromCommand (fs : String → Option Json) (s : AppState)
    (path : String) : AppState × Option ContextFileError :=
  match readContextFileFromArguments fs path with
  | .error e => (s, some e)
  | .ok ctx => ({ s with context := s.context ++ ctx }, Option.none)

/-- `prependFromCommand` (command file): splices the parsed file at the
front, without an autosave refresh. -/
def prependFromCommand (fs : String → Option Json) (s : AppState)
    (path : String) : AppState × Option ContextFileError :=
  match readContextFileFromArguments fs path with
  | .error e => (s, some e)
  | .ok ctx => ({ s with context := ctx ++ s.context }, Option.none)

/-- The plain-input branch of `appMain` (main.go): append the user line,
run the exchange; on failure report and pop the user message; on success
either record the assistant reply or, in forgetful mode, pop the user
message instead. -/
def exchangePlainInput
    (send : List Message → Nat → Except String (List CompletionDelta))
    (rnd : Nat → ℚ) (s : AppState) (line : String) : AppState :=
  let s1 := appendToContext s ⟨"user", line⟩
  match (sendContextAndProcessResponse send rnd s1.maxRetries s1.context).result with
  | .error _ => (popFromContext s1 1).1
  | .ok content =>
    if s1.forgetful then (popFromContext s1 1).1
    else appendToContext s1 ⟨"assistant", content⟩

/-- `escapeCommand` (command file): append the argument as a user message,
run the exchange, and on failure return the error — the appended user
message is left in the context. -/
def escapeCommand
    (send : List Message → Nat → Except String (List CompletionDelta))
    (rnd : Nat → ℚ) (s : AppState) (args : String) : AppState × Option String :=
  let s1 := appendToContext s ⟨"user", args⟩
  match (sendContextAndProcessResponse send rnd s1.maxRetries s1.context).result with
  | .error e => (s1, some e)
  | .ok content => (appendToContext s1 ⟨"assistant", content⟩, Option.none)

/-- `sendCommand` (command file): sends the context as-is. -/
def sendCommand
    (send : List Message → Nat → Except String (List CompletionDelta))
    (rnd : Nat → ℚ) (s : AppState) (args : String) : AppState × Option String :=
  if args = "" then
    match (sendContextAndProcessResponse send rnd s.maxRetries s.context).result with
    | .error e => (s, some e)
    | .ok content => (appendToContext s ⟨"assistant", content⟩, Option.none)
  else (s, some "expected no arguments")

/-- `nanoSendCommand` (command file): role defaults to `user`; the text
editor result is the `editorContent` oracle; the appended message is left
in the context when the exchange fails. -/
def nanoSendCommand
    (send : List Message → Nat → Except String (List CompletionDelta))
    (rnd : Nat → ℚ) (editorContent : Except String String)
    (s : AppState) (roleArg : String) : AppState × Option String :=
  let role := if roleArg = "" then "user" else roleArg
  if isRoleValid role then
    match editorContent with
    | .error e => (s, some e)
    | .ok raw =>
      let content := trimString raw
      if content = "" then (s, some "no content in file")
      else
        let s1 := appendToContext s ⟨role, content⟩
        match (sendContextAndProcessResponse send rnd s1.maxRetries s1.context).result with
        | .error e => (s1, some e)
        | .ok resp => (appendToContext s1 ⟨"assistant", resp⟩, Option.none)
  else (s, some ("invalid role: " ++ role))

/-! ### Structural helper lemmas -/

@[simp]
theorem tryUpdateAutosaveFile_context (s : AppState) :
    (tryUpdateAutosaveFile s).context = s.context := by
  unfold tryUpdateAutosaveFile; split <;> rfl

@[simp]
theorem tryUpdateAutosaveFile_forgetful (s : AppState) :
    (tryUpdateAutosaveFile s).forgetful = s.forgetful := by
  unfold tryUpdateAutosaveFile; split <;> rfl

@[simp]
theorem tryUpdateAutosaveFile_maxRetries (s : AppState) :
    (tryUpdateAutosaveFile s).maxRetries = s.maxRetries := by
  unfold tryUpdateAutosaveFile; split <;> rfl

@[simp]
theorem tryUpdateAutosaveFile_autosaveFilePath (s : AppState) :
    (tryUpdateAutosaveFile s).autosaveFilePath = s.autosaveFilePath := by
  unfold tryUpdateAutosaveFile; split <;> rfl

theorem tryUpdateAutosaveFile_writes (s : AppState) (h : s.autosaveFilePath ≠ "") :
    (tryUpdateAutosaveFile s).writes
      = s.writes ++ [(s.autosaveFilePath, s.context)] := by
  unfold tryUpdateAutosaveFile; rw [if_neg h]

@[simp]
theorem appendToContext_context (s : AppState) (m : Message) :
    (appendToContext s m).context = s.context ++ [m] := by
  unfold appendToContext; simp

@[simp]
theorem appendToContext_forgetful (s : AppState) (m : Message) :
    (appendToContext s m).forgetful = s.forgetful := by
  unfold appendToContext; simp

@[simp]
theorem appendToContext_maxRetries (s : AppState) (m : Message) :
    (appendToContext s m).maxRetries = s.maxRetries := by
  unfold appendToContext; simp

/-- Popping one element right after an append restores the original context. -/
theorem popFromContext_one_appendToContext (s : AppState) (m : Message) :
    (popFromContext (appendToContext s m) 1).1.context = s.context := by
  unfold popFromContext
  rw [if_neg (by norm_num)]
  rw [if_neg (by simp)]
  simp

/-- Draining a run of clean fragments accumulates their text. -/
theorem collectStream_append (frags : List CompletionDelta)
    (h : ∀ x ∈ frags, x.err = DeltaErr.ok) (acc : String)
    (tail : List CompletionDelta) :
    collectStream acc (frags ++ tail)
      = collectStream (acc ++ concatDeltas frags) tail := by
  induction frags generalizing acc with
  | nil => simp [concatDeltas, String.append_empty]
  | cons d rest ih =>
    have hd : d.err = DeltaErr.ok := h d (List.mem_cons_self _ _)
    have hrest : ∀ x ∈ rest, x.err = DeltaErr.ok :=
      fun x hx => h x (List.mem_cons_of_mem _ hx)
    simp only [List.cons_append, collectStream, hd, concatDeltas, List.append_eq]
    rw [ih hrest (acc ++ d.delta), String.append_assoc]

/-! ### Claim theorems -/

/-- Claim C5: for every context and `1 ≤ n ≤ len(context)`, `popFromContext`
succeeds, removes exactly the last `n` entries and leaves the first
`len - n` entries unchanged; for `n < 1` or `n > len(context)` it returns an
error and leaves the whole state unchanged. -/
theorem popFromContext_spec (s : AppState) (n : Int) :
    (1 ≤ n → n ≤ (s.context.length : Int) →
      (popFromContext s n).2 = Option.none ∧
      (popFromContext s n).1.context
        = s.context.take (s.context.length - n.toNat) ∧
      ((s.context.drop (s.context.length - n.toNat)).length : Int) = n) ∧
    (n < 1 ∨ (s.context.length : Int) < n →
      (popFromContext s n).1 = s ∧ (popFromContext s n).2 ≠ Option.none) := by
  constructor
  · intro h1 h2
    unfold popFromContext
    rw [if_neg (by omega), if_neg (by omega)]
    refine ⟨rfl, by simp, ?_⟩
    simp only [List.length_drop]
    omega
  · intro h
    unfold popFromContext
    rcases h with h1 | h2
    · rw [if_pos h1]; exact ⟨rfl, by simp⟩
    · by_cases h1 : n < 1
      · rw [if_pos h1]; exact ⟨rfl, by simp⟩
      · rw [if_neg h1, if_pos h2]; exact ⟨rfl, by simp⟩

/-- A context of three messages used by concrete witnesses. -/
def sampleContext : List Message :=
  [⟨"system", "a"⟩, ⟨"user", "b"⟩, ⟨"assistant", "c"⟩]

/-- A concrete app state (no autosave path configured). -/
def sampleState : AppState :=
  { context := sampleContext, model := "gpt-4", forgetful := false,
    maxRetries := 5, autosaveFilePath := "", writes := [] }

/-- Witness for C5: popping 2 of 3 messages. -/
theorem popFromContext_spec_witness :
    (popFromContext sampleState 2).2 = Option.none ∧
    (popFromContext sampleState 2).1.context
      = sampleState.context.take (sampleState.context.length - (2 : Int).toNat) ∧
    ((sampleState.context.drop
        (sampleState.context.length - (2 : Int).toNat)).length : Int) = 2 :=
  (popFromContext_spec sampleState 2).1 (by decide) (by decide)

/-- Claim C7: draining a stream concatenates the fragment text in arrival
order up to the end-of-stream marker; a mid-stream error aborts with that
error and discards all partial text (the result carries no text). -/
theorem stream_drain_spec (frags rest : List CompletionDelta)
    (d : CompletionDelta) (e : String)
    (hfrags : ∀ x ∈ frags, x.err = DeltaErr.ok) :
    (d.err = DeltaErr.eof →
      printAndCollectStream (frags ++ d :: rest)
        = Except.ok (concatDeltas frags)) ∧
    (d.err = DeltaErr.fail e →
      printAndCollectStream (frags ++ d :: rest) = Except.error e) := by
  constructor <;> intro hd <;>
    · unfold printAndCollectStream
      rw [collectStream_append frags hfrags "" (d :: rest)]
      simp [collectStream, hd, String.empty_append]

/-- Witness for C7: two clean fragments then the end-of-stream marker. -/
theorem stream_drain_spec_witness :
    printAndCollectStream
        ([⟨"abc ", DeltaErr.ok⟩, ⟨"def", DeltaErr.ok⟩]
          ++ ⟨"", DeltaErr.eof⟩ :: [])
      = Except.ok "abc def" :=
  ((stream_drain_spec [⟨"abc ", DeltaErr.ok⟩, ⟨"def", DeltaErr.ok⟩] []
      ⟨"", DeltaErr.eof⟩ "unused" (by decide)).1 (by decide)).trans rfl

/-- Claim C10: a channel closed by the producer with no terminal marker
consumed is treated as a clean end of stream: the text collected so far is
returned as a successful response. -/
theorem stream_closure_clean_end (stream : List CompletionDelta)
    (h : ∀ x ∈ stream, x.err = DeltaErr.ok) :
    printAndCollectStream stream = Except.ok (concatDeltas stream) := by
  unfold printAndCollectStream
  have hc := collectStream_append stream h "" []
  rw [List.append_nil] at hc
  rw [hc, String.empty_append]
  rfl

/-- Witness for C10: a closed channel after two clean fragments. -/
theorem stream_closure_clean_end_witness :
    printAndCollectStream [⟨"abc ", DeltaErr.ok⟩, ⟨"def", DeltaErr.ok⟩]
      = Except.ok "abc def" :=
  (stream_closure_clean_end [⟨"abc ", DeltaErr.ok⟩, ⟨"def", DeltaErr.ok⟩]
      (by decide)).trans rfl

/-- An app state with an autosave path configured and an empty write trace. -/
def mirrorState : AppState :=
  { context := [⟨"system", "a"⟩], model := "gpt-4", forgetful := false,
    maxRetries := 5, autosaveFilePath := "save.json", writes := [] }

/-- A file system with no readable files. -/
def emptyFs : String → Option Json := fun _ => Option.none

/-- Counterexample to claim C1: with an autosave path configured, the
`prepend` command mutates the context yet attempts no autosave write. -/
theorem autosave_mirror_counterexample :
    mirrorState.autosaveFilePath ≠ "" ∧
    (prependCommand mirrorState "user hi").2 = Option.none ∧
    (prependCommand mirrorState "user hi").1.context ≠ mirrorState.context ∧
    (prependCommand mirrorState "user hi").1.writes = [] := by
  decide

/-- Claim C1 as amended: with an autosave path configured, mutations through
`appendToContext` (append/escape/send/ns and the exchange path),
`popFromContext` (pop and exchange rollback) and the `clear` command are
each followed by an autosave write attempt mirroring the new in-memory
context; but the `prepend`, `replacefrom`, `appendfrom` and `prependfrom`
commands mutate the context with no autosave write attempt. -/
theorem autosave_mirror_coverage (s : AppState) (m : Message) (n : Int)
    (msgArgs path : String) (fs : String → Option Json)
    (h : s.autosaveFilePath ≠ "") :
    ((appendToContext s m).writes
      = s.writes ++ [(s.autosaveFilePath, (appendToContext s m).context)]) ∧
    ((popFromContext s n).2 = Option.none →
      (popFromContext s n).1.writes
        = s.writes ++ [(s.autosaveFilePath, (popFromContext s n).1.context)]) ∧
    ((clearCommand s "").1.writes
      = s.writes ++ [(s.autosaveFilePath, [])]) ∧
    ((appendCommand s msgArgs).2 = Option.none →
      (appendCommand s msgArgs).1.writes
        = s.writes ++ [(s.autosaveFilePath, (appendCommand s msgArgs).1.context)]) ∧
    ((prependCommand s msgArgs).2 = Option.none →
      (prependCommand s msgArgs).1.writes = s.writes ∧
      (prependCommand s msgArgs).1.context.length = s.context.length + 1) ∧
    ((replaceFromCommand fs s path).1.writes = s.writes) ∧
    ((appendFromCommand fs s path).1.writes = s.writes) ∧
    ((prependFromCommand fs s path).1.writes = s.writes) := by
  refine ⟨?_, ?_, ?_, ?_, ?_, ?_, ?_, ?_⟩
  · unfold appendToContext
    rw [tryUpdateAutosaveFile_writes]
    · simp
    · exact h
  · intro hok
    unfold popFromContext at hok ⊢
    by_cases h1 : n < 1
    · rw [if_pos h1] at hok; exact absurd hok (by simp)
    · by_cases h2 : (s.context.length : Int) < n
      · rw [if_neg h1, if_pos h2] at hok; exact absurd hok (by simp)
      · rw [if_neg h1, if_neg h2]
        rw [tryUpdateAutosaveFile_writes]
        · simp
        · exact h
  · unfold clearCommand
    rw [if_pos rfl, tryUpdateAutosaveFile_writes]
    exact h
  · intro hok
    unfold appendCommand at hok ⊢
    rcases hp : parseSingleMessageFromArguments msgArgs with e | ⟨role, msg⟩
    · rw [hp] at hok; exact absurd hok (by simp)
    · dsimp only
      unfold appendToContext
      rw [tryUpdateAutosaveFile_writes]
      · simp
      · exact h
  · intro hok
    unfold prependCommand at hok ⊢
    rcases hp : parseSingleMessageFromArguments msgArgs with e | ⟨role, msg⟩
    · rw [hp] at hok; exact absurd hok (by simp)
    · exact ⟨rfl, by simp⟩
  · rcases hr : readContextFileFromArguments fs path with e | ctx <;>
      simp [replaceFromCommand, hr]
  · rcases hr : readContextFileFromArguments fs path with e | ctx <;>
      simp [appendFromCommand, hr]
  · rcases hr : readContextFileFromArguments fs path with e | ctx <;>
      simp [prependFromCommand, hr]

/-- Witness for the amended C1 at a concrete state with path `save.json`. -/
theorem autosave_mirror_coverage_witness :
    mirrorState.autosaveFilePath ≠ "" ∧
    (((appendToContext mirrorState ⟨"user", "b"⟩).writes
      = mirrorState.writes
        ++ [(mirrorState.autosaveFilePath,
             (appendToContext mirrorState ⟨"user", "b"⟩).context)]) ∧
    ((popFromContext mirrorState 1).2 = Option.none →
      (popFromContext mirrorState 1).1.writes
        = mirrorState.writes
          ++ [(mirrorState.autosaveFilePath,
               (popFromContext mirrorState 1).1.context)]) ∧
    ((clearCommand mirrorState "").1.writes
      = mirrorState.writes ++ [(mirrorState.autosaveFilePath, [])]) ∧
    ((appendCommand mirrorState "user hi").2 = Option.none →
      (appendCommand mirrorState "user hi").1.writes
        = mirrorState.writes
          ++ [(mirrorState.autosaveFilePath,
               (appendCommand mirrorState "user hi").1.context)]) ∧
    ((prependCommand mirrorState "user hi").2 = Option.none →
      (prependCommand mirrorState "user hi").1.writes = mirrorState.writes ∧
      (prependCommand mirrorState "user hi").1.context.length
        = mirrorState.context.length + 1) ∧
    ((replaceFromCommand emptyFs mirrorState "ctx.json").1.writes
      = mirrorState.writes) ∧
    ((appendFromCommand emptyFs mirrorState "ctx.json").1.writes
      = mirrorState.writes) ∧
    ((prependFromCommand emptyFs mirrorState "ctx.json").1.writes
      = mirrorState.writes)) :=
  ⟨by decide,
   autosave_mirror_coverage mirrorState ⟨"user", "b"⟩ 1 "user hi" "ctx.json"
     emptyFs (by decide)⟩

deriving instance DecidableEq for Except

/-- A completion API whose establishment step always fails. -/
def failingSend : List Message → Nat → Except String (List CompletionDelta) :=
  fun _ _ => Except.error "connection refused"

/-- A jitter source that always draws 0. -/
def zeroRnd : Nat → ℚ := fun _ => 0

/-- Counterexample to claim C2: when the exchange of `/escape` fails, the
just-appended user message is left in the context, so the context does not
equal its value from before the input was appended. -/
theorem exchange_failure_counterexample :
    (escapeCommand failingSend zeroRnd sampleState "hi").2 ≠ Option.none ∧
    (escapeCommand failingSend zeroRnd sampleState "hi").1.context
      ≠ sampleState.context ∧
    (escapeCommand failingSend zeroRnd sampleState "hi").1.context
      = sampleState.context ++ [⟨"user", "hi"⟩] := by
  decide

/-- Claim C2 as amended: a failed plain-input exchange restores the context
to its value from before the user input was appended, and a failed `/send`
leaves the whole state unchanged; but `/escape` and `/ns` leave the
just-appended user message in the context when the exchange fails. -/
theorem exchange_failure_rollback
    (send : List Message → Nat → Except String (List CompletionDelta))
    (rnd : Nat → ℚ) (s : AppState) (line args raw e : String) :
    ((sendContextAndProcessResponse send rnd s.maxRetries
        (s.context ++ [⟨"user", line⟩])).result = Except.error e →
      (exchangePlainInput send rnd s line).context = s.context) ∧
    ((sendContextAndProcessResponse send rnd s.maxRetries s.context).result
        = Except.error e →
      sendCommand send rnd s "" = (s, some e)) ∧
    ((sendContextAndProcessResponse send rnd s.maxRetries
        (s.context ++ [⟨"user", args⟩])).result = Except.error e →
      (escapeCommand send rnd s args).1.context
        = s.context ++ [⟨"user", args⟩] ∧
      (escapeCommand send rnd s args).2 = some e) ∧
    (trimString raw ≠ "" →
      (sendContextAndProcessResponse send rnd s.maxRetries
        (s.context ++ [⟨"user", trimString raw⟩])).result = Except.error e →
      (nanoSendCommand send rnd (Except.ok raw) s "").1.context
        = s.context ++ [⟨"user", trimString raw⟩] ∧
      (nanoSendCommand send rnd (Except.ok raw) s "").2 = some e) := by
  refine ⟨?_, ?_, ?_, ?_⟩
  · intro hfail
    simp only [exchangePlainInput]
    rw [appendToContext_maxRetries, appendToContext_context, hfail]
    exact popFromContext_one_appendToContext s _
  · intro hfail
    unfold sendCommand
    rw [if_pos rfl, hfail]
  · intro hfail
    simp only [escapeCommand]
    rw [appendToContext_maxRetries, appendToContext_context, hfail]
    exact ⟨by simp, rfl⟩
  · intro htrim hfail
    simp only [nanoSendCommand, if_true]
    rw [show isRoleValid "user" = true from by decide]
    rw [if_pos rfl]
    rw [if_neg htrim]
    rw [appendToContext_maxRetries, appendToContext_context, hfail]
    exact ⟨by simp, rfl⟩

/-- Witness for the amended C2: a failing establishment on a concrete
state, exercising the plain-input, `/send`, `/escape` and `/ns` paths. -/
theorem exchange_failure_rollback_witness :
    (exchangePlainInput failingSend zeroRnd sampleState "q").context
      = sampleState.context ∧
    sendCommand failingSend zeroRnd sampleState ""
      = (sampleState, some "failed to send context: connection refused") ∧
    (escapeCommand failingSend zeroRnd sampleState "hi").1.context
      = sampleState.context ++ [⟨"user", "hi"⟩] ∧
    (nanoSendCommand failingSend zeroRnd (Except.ok " note ")
        sampleState "").1.context
      = sampleState.context ++ [⟨"user", trimString " note "⟩] := by
  refine ⟨?_, ?_, ?_, ?_⟩
  · exact (exchange_failure_rollback failingSend zeroRnd sampleState "q" "hi"
      " note " "failed to send context: connection refused").1 (by decide)
  · exact (exchange_failure_rollback failingSend zeroRnd sampleState "q" "hi"
      " note " "failed to send context: connection refused").2.1 (by decide)
  · exact ((exchange_failure_rollback failingSend zeroRnd sampleState "q" "hi"
      " note " "failed to send context: connection refused").2.2.1 (by decide)).1
  · exact ((exchange_failure_rollback failingSend zeroRnd sampleState "q" "hi"
      " note " "failed to send context: connection refused").2.2.2 (by decide)
      (by decide)).1

/-- A completion API that always establishes a stream answering "abc def". -/
def okSend : List Message → Nat → Except String (List CompletionDelta) :=
  fun _ _ =>
    Except.ok [⟨"abc ", DeltaErr.ok⟩, ⟨"def", DeltaErr.ok⟩, ⟨"", DeltaErr.eof⟩]

/-- An app state with forgetful mode enabled. -/
def forgetfulState : AppState :=
  { context := [⟨"system", "a"⟩], model := "gpt-4", forgetful := true,
    maxRetries := 5, autosaveFilePath := "", writes := [] }

/-- Claim C8: in forgetful mode a successful plain-input exchange retracts
the just-appended user message instead of recording the assistant response,
so the context afterwards equals the context from before the input was
appended — even though the exchange itself was performed on the context
including that user message. -/
theorem forgetful_mode_spec
    (send : List Message → Nat → Except String (List CompletionDelta))
    (rnd : Nat → ℚ) (s : AppState) (line content : String)
    (hf : s.forgetful = true)
    (hok : (sendContextAndProcessResponse send rnd s.maxRetries
        (s.context ++ [⟨"user", line⟩])).result = Except.ok content) :
    (exchangePlainInput send rnd s line).context = s.context := by
  simp only [exchangePlainInput]
  rw [appendToContext_maxRetries, appendToContext_context, hok]
  dsimp only
  rw [appendToContext_forgetful, hf, if_pos rfl]
  exact popFromContext_one_appendToContext s _

/-- Witness for C8: the spec scenario — context `[(system, a)]`, input `b`,
response "abc def"; the context is unchanged by the successful exchange. -/
theorem forgetful_mode_spec_witness :
    (exchangePlainInput okSend zeroRnd forgetfulState "b").context
      = forgetfulState.context :=
  forgetful_mode_spec okSend zeroRnd forgetfulState "b" "abc def"
    (by decide) (by decide)

/-- Full behaviour of the retry loop: the attempt counter moves forward by
at least one and by at most the budget plus one; every call before the last
one failed; a successful last call delivers its stream; a failed last call
means the budget was exhausted and its error is the surfaced one. -/
theorem sendWithRetries_spec (out : Nat → Except String (List CompletionDelta))
    (jitter : Nat → ℚ) :
    ∀ (retries attempt : Nat) (w : ℚ),
      (attempt < (sendWithRetries out jitter retries attempt w).calls ∧
        (sendWithRetries out jitter retries attempt w).calls
          ≤ attempt + retries + 1) ∧
      (∀ j, attempt ≤ j →
        j + 1 < (sendWithRetries out jitter retries attempt w).calls →
        ∃ e, out j = Except.error e) ∧
      (∀ stream,
        out ((sendWithRetries out jitter retries attempt w).calls - 1)
          = Except.ok stream →
        (sendWithRetries out jitter retries attempt w).outcome
          = Except.ok stream) ∧
      (∀ e,
        out ((sendWithRetries out jitter retries attempt w).calls - 1)
          = Except.error e →
        (sendWithRetries out jitter retries attempt w).calls
          = attempt + retries + 1 ∧
        (sendWithRetries out jitter retries attempt w).outcome
          = Except.error e) := by
  intro retries
  induction retries with
  | zero =>
    intro attempt w
    rcases ho : out attempt with e0 | st0
    · have hred : sendWithRetries out jitter 0 attempt w
          = ⟨attempt + 1, [], Except.error e0⟩ := by
        simp [sendWithRetries, ho]
      simp only [hred]
      refine ⟨⟨by omega, by omega⟩, ?_, ?_, ?_⟩
      · intro j hj hj1; omega
      · intro stream hstream
        rw [Nat.add_sub_cancel, ho] at hstream
        exact absurd hstream (by simp)
      · intro e he
        rw [Nat.add_sub_cancel, ho] at he
        injection he with he
        exact ⟨trivial, by rw [he]⟩
    · have hred : sendWithRetries out jitter 0 attempt w
          = ⟨attempt + 1, [], Except.ok st0⟩ := by
        simp [sendWithRetries, ho]
      simp only [hred]
      refine ⟨⟨by omega, by omega⟩, ?_, ?_, ?_⟩
      · intro j hj hj1; omega
      · intro stream hstream
        rw [Nat.add_sub_cancel, ho] at hstream
        injection hstream with hstream
        rw [hstream]
      · intro e he
        rw [Nat.add_sub_cancel, ho] at he
        exact absurd he (by simp)
  | succ r ih =>
    intro attempt w
    rcases ho : out attempt with e0 | st0
    · obtain ⟨⟨hlt, hle⟩, hfl, hok, herr⟩ :=
        ih (attempt + 1) (2 * w + jitter attempt)
      have hred : sendWithRetries out jitter (r + 1) attempt w
          = ⟨(sendWithRetries out jitter r (attempt + 1)
                (2 * w + jitter attempt)).calls,
             sleptSeconds w :: (sendWithRetries out jitter r (attempt + 1)
                (2 * w + jitter attempt)).sleeps,
             (sendWithRetries out jitter r (attempt + 1)
                (2 * w + jitter attempt)).outcome⟩ := by
        rw [sendWithRetries, ho]
      simp only [hred]
      refine ⟨⟨by omega, by omega⟩, ?_, hok, ?_⟩
      · intro j hj hj1
        rcases Nat.eq_or_lt_of_le hj with rfl | hj'
        · exact ⟨e0, ho⟩
        · exact hfl j hj' hj1
      · intro e he
        obtain ⟨hc, houtc⟩ := herr e he
        exact ⟨by omega, houtc⟩
    · have hred : sendWithRetries out jitter (r + 1) attempt w
          = ⟨attempt + 1, [], Except.ok st0⟩ := by
        simp [sendWithRetries, ho]
      simp only [hred]
      refine ⟨⟨by omega, by omega⟩, ?_, ?_, ?_⟩
      · intro j hj hj1; omega
      · intro stream hstream
        rw [Nat.add_sub_cancel, ho] at hstream
        injection hstream with hstream
        rw [hstream]
      · intro e he
        rw [Nat.add_sub_cancel, ho] at he
        exact absurd he (by simp)

/-- The wrapper `sendContextAndProcessResponse` keeps the call count and
the sleep sequence of the retry loop. -/
theorem sendContextAndProcessResponse_counts
    (send : List Message → Nat → Except String (List CompletionDelta))
    (rnd : Nat → ℚ) (R : Nat) (ctx : List Message) :
    (sendContextAndProcessResponse send rnd R ctx).calls
      = (sendWithRetries (send ctx) (fun k => rnd k / 3) R 0 1).calls ∧
    (sendContextAndProcessResponse send rnd R ctx).sleeps
      = (sendWithRetries (send ctx) (fun k => rnd k / 3) R 0 1).sleeps := by
  rcases ho : (sendWithRetries (send ctx) (fun k => rnd k / 3) R 0 1).outcome
    with e | stream
  · constructor <;> simp only [sendContextAndProcessResponse, ho]
  · rcases hp : printAndCollectStream stream with e2 | c <;>
      constructor <;> simp only [sendContextAndProcessResponse, ho, hp]

/-- Claim C3: with retry budget `R`, establishment is attempted between 1
and `R+1` times, every attempt before the last one failed (so the loop
stops at the first success), a successful last establishment is followed by
a single drain of that stream whose mid-stream error (if any) terminates
the exchange without further establishment calls, and when the last attempt
fails the budget is exhausted and its error is surfaced. -/
theorem retry_policy
    (send : List Message → Nat → Except String (List CompletionDelta))
    (rnd : Nat → ℚ) (R : Nat) (ctx : List Message) :
    (1 ≤ (sendContextAndProcessResponse send rnd R ctx).calls ∧
      (sendContextAndProcessResponse send rnd R ctx).calls ≤ R + 1) ∧
    (∀ j, j + 1 < (sendContextAndProcessResponse send rnd R ctx).calls →
      ∃ e, send ctx j = Except.error e) ∧
    (∀ stream,
      send ctx ((sendContextAndProcessResponse send rnd R ctx).calls - 1)
        = Except.ok stream →
      (sendContextAndProcessResponse send rnd R ctx).result
        = match printAndCollectStream stream with
          | Except.ok c => Except.ok c
          | Except.error e => Except.error ("stream error: " ++ e)) ∧
    (∀ e,
      send ctx ((sendContextAndProcessResponse send rnd R ctx).calls - 1)
        = Except.error e →
      (sendContextAndProcessResponse send rnd R ctx).calls = R + 1 ∧
      (sendContextAndProcessResponse send rnd R ctx).result
        = Except.error ("failed to send context: " ++ e)) := by
  obtain ⟨hcalls, hsleeps⟩ :=
    sendContextAndProcessResponse_counts send rnd R ctx
  obtain ⟨⟨h1, h2⟩, hfl, hok, herr⟩ :=
    sendWithRetries_spec (send ctx) (fun k => rnd k / 3) R 0 1
  refine ⟨⟨by omega, by omega⟩, ?_, ?_, ?_⟩
  · intro j hj
    rw [hcalls] at hj
    exact hfl j (Nat.zero_le j) hj
  · intro stream hstream
    rw [hcalls] at hstream
    have houtc := hok stream hstream
    simp only [sendContextAndProcessResponse, houtc]
    rcases hp : printAndCollectStream stream with e | c <;> rfl
  · intro e he
    rw [hcalls] at he
    obtain ⟨hc, houtc⟩ := herr e he
    constructor
    · omega
    · simp only [sendContextAndProcessResponse, houtc]

/-- A completion API failing on attempts 0 and 1 and succeeding from
attempt 2 on. -/
def flakySend : List Message → Nat → Except String (List CompletionDelta) :=
  fun _ k =>
    if k < 2 then Except.error "boom"
    else Except.ok [⟨"hi", DeltaErr.ok⟩, ⟨"", DeltaErr.eof⟩]

/-- Witness for C3: two failures, then success on the third attempt. -/
theorem retry_policy_witness :
    (1 ≤ (sendContextAndProcessResponse flakySend zeroRnd 5 []).calls ∧
      (sendContextAndProcessResponse flakySend zeroRnd 5 []).calls ≤ 5 + 1) ∧
    (∃ e, flakySend [] 1 = Except.error e) ∧
    (sendContextAndProcessResponse flakySend zeroRnd 5 []).result
      = Except.ok "hi" := by
  refine ⟨(retry_policy flakySend zeroRnd 5 []).1, ?_, ?_⟩
  · exact (retry_policy flakySend zeroRnd 5 []).2.1 1 (by decide)
  · have h := (retry_policy flakySend zeroRnd 5 []).2.2.1
      [⟨"hi", DeltaErr.ok⟩, ⟨"", DeltaErr.eof⟩] (by decide)
    exact h.trans (by decide)

/-- The wait of the `k`-th sleep when the loop starts waiting `w` at
attempt `base`: doubled after each failure, plus the jitter drawn after
that failure. -/
def waitFrom (jitter : Nat → ℚ) (w : ℚ) (base : Nat) : Nat → ℚ
  | 0 => w
  | k + 1 => 2 * waitFrom jitter w base k + jitter (base + k)

theorem waitFrom_shift (jitter : Nat → ℚ) (w : ℚ) (base : Nat) :
    ∀ k, waitFrom jitter w base (k + 1)
      = waitFrom jitter (2 * w + jitter base) (base + 1) k := by
  intro k
  induction k with
  | zero => simp [waitFrom]
  | succ k ih =>
    show 2 * waitFrom jitter w base (k + 1) + jitter (base + (k + 1))
      = 2 * waitFrom jitter (2 * w + jitter base) (base + 1) k
        + jitter (base + 1 + k)
    rw [ih]
    have h : base + (k + 1) = base + 1 + k := by omega
    rw [h]

/-- The sleep sequence of the retry loop is an initial run of the
truncations of the `waitFrom` recurrence. -/
theorem sendWithRetries_sleeps (out : Nat → Except String (List CompletionDelta))
    (jitter : Nat → ℚ) :
    ∀ (retries attempt : Nat) (w : ℚ), ∃ m,
      (sendWithRetries out jitter retries attempt w).sleeps
        = (List.range m).map (fun k => sleptSeconds (waitFrom jitter w attempt k)) := by
  intro retries
  induction retries with
  | zero =>
    intro attempt w
    rcases ho : out attempt with e0 | st0 <;>
      exact ⟨0, by rw [sendWithRetries, ho]; rfl⟩
  | succ r ih =>
    intro attempt w
    rcases ho : out attempt with e0 | st0
    · obtain ⟨m, hm⟩ := ih (attempt + 1) (2 * w + jitter attempt)
      refine ⟨m + 1, ?_⟩
      have hred : (sendWithRetries out jitter (r + 1) attempt w).sleeps
          = sleptSeconds w :: (sendWithRetries out jitter r (attempt + 1)
              (2 * w + jitter attempt)).sleeps := by
        rw [sendWithRetries, ho]
      rw [hred, hm, List.range_succ_eq_map, List.map_cons, List.map_map]
      congr 1
      apply List.map_congr_left
      intro k _
      show sleptSeconds (waitFrom jitter (2 * w + jitter attempt) (attempt + 1) k)
        = ((fun k => sleptSeconds (waitFrom jitter w attempt k)) ∘ Nat.succ) k
      exact congrArg sleptSeconds (waitFrom_shift jitter w attempt k).symm
    · exact ⟨0, by rw [sendWithRetries, ho]; rfl⟩

/-- A jitter source that always draws 1/4. -/
def quarterRnd : Nat → ℚ := fun _ => 1 / 4

/-- Counterexample to claim C4: with the uniform draw 1/4 (so a jitter of
1/12) the internal backoff variable after the first failure is 2 + 1/12,
but `time.Duration` truncation makes the program sleep exactly 2 seconds —
the second wait is not the previous wait times 2 plus the jitter. -/
theorem backoff_truncation_counterexample :
    (0 ≤ quarterRnd 0 ∧ quarterRnd 0 < 1) ∧
    (sendContextAndProcessResponse flakySend quarterRnd 2 []).sleeps[0]?
      = some 1 ∧
    (sendContextAndProcessResponse flakySend quarterRnd 2 []).sleeps[1]?
      = some 2 ∧
    (2 : ℚ) ≠ 2 * 1 + quarterRnd 0 / 3 := by
  have hsl : (sendContextAndProcessResponse flakySend quarterRnd 2 []).sleeps
      = [sleptSeconds 1, sleptSeconds (2 * 1 + quarterRnd 0 / 3)] := rfl
  have hone : sleptSeconds 1 = 1 := by
    unfold sleptSeconds
    rw [if_pos (by norm_num)]
    rw [Int.floor_one]
    norm_num
  have hval : (2 : ℚ) * 1 + quarterRnd 0 / 3 = 25 / 12 := by
    norm_num [quarterRnd]
  have htwo : sleptSeconds ((25 : ℚ) / 12) = 2 := by
    unfold sleptSeconds
    rw [if_pos (by norm_num)]
    have hf : ⌊(25 : ℚ) / 12⌋ = 2 := by
      rw [Int.floor_eq_iff]
      norm_num
    rw [hf]
    norm_num
  refine ⟨⟨by norm_num [quarterRnd], by norm_num [quarterRnd]⟩, ?_, ?_,
    by norm_num [quarterRnd]⟩
  · rw [hsl, hone]
    rfl
  · rw [hsl, hval, htwo]
    rfl

/-- Claim C4 as amended: the program sleeps whole seconds.  The `k`-th wait
actually slept is the truncation toward zero (`time.Duration` conversion)
of an internal backoff value `v k`, where `v 0 = 1` and
`v (k+1) = 2 * v k + rnd k / 3`; the jitter `rnd k / 3` comes from a
uniform draw in `[0, 1)` hence lies in `[0, 1/3)`, and it only inflates the
backoff values of subsequent waits — the first wait is exactly 1 second. -/
theorem backoff_policy
    (send : List Message → Nat → Except String (List CompletionDelta))
    (rnd : Nat → ℚ) (R : Nat) (ctx : List Message)
    (hrnd : ∀ k, 0 ≤ rnd k ∧ rnd k < 1) :
    (waitFrom (fun k => rnd k / 3) 1 0 0 = 1 ∧
      ∀ k, waitFrom (fun k => rnd k / 3) 1 0 (k + 1)
        = 2 * waitFrom (fun k => rnd k / 3) 1 0 k + rnd k / 3) ∧
    (∀ k a,
      (sendContextAndProcessResponse send rnd R ctx).sleeps[k]? = some a →
      a = sleptSeconds (waitFrom (fun k => rnd k / 3) 1 0 k)) ∧
    ((sendContextAndProcessResponse send rnd R ctx).sleeps[0]? = Option.none ∨
      (sendContextAndProcessResponse send rnd R ctx).sleeps[0]? = some 1) ∧
    (∀ k, 0 ≤ rnd k / 3 ∧ rnd k / 3 < 1 / 3) := by
  obtain ⟨m, hm⟩ := sendWithRetries_sleeps (send ctx) (fun k => rnd k / 3) R 0 1
  have hsl : (sendContextAndProcessResponse send rnd R ctx).sleeps
      = (List.range m).map
          (fun k => sleptSeconds (waitFrom (fun k => rnd k / 3) 1 0 k)) :=
    (sendContextAndProcessResponse_counts send rnd R ctx).2.trans hm
  have hone : sleptSeconds 1 = 1 := by
    unfold sleptSeconds
    rw [if_pos (by norm_num)]
    rw [Int.floor_one]
    norm_num
  refine ⟨⟨rfl, ?_⟩, ?_, ?_, ?_⟩
  · intro k
    show 2 * waitFrom (fun k => rnd k / 3) 1 0 k + (fun k => rnd k / 3) (0 + k)
      = 2 * waitFrom (fun k => rnd k / 3) 1 0 k + rnd k / 3
    simp
  · intro k a ha
    rw [hsl, List.getElem?_map] at ha
    have hkm : k < m := by
      by_contra hc
      rw [List.getElem?_eq_none (by simpa using Nat.le_of_not_lt hc)] at ha
      exact absurd ha (by simp)
    rw [List.getElem?_range hkm] at ha
    have h2 : sleptSeconds (waitFrom (fun k => rnd k / 3) 1 0 k) = a := by
      simpa using ha
    exact h2.symm
  · rw [hsl]
    cases m with
    | zero => left; rfl
    | succ m2 =>
      right
      rw [List.getElem?_map, List.getElem?_range (by omega)]
      show some (sleptSeconds (waitFrom (fun k => rnd k / 3) 1 0 0)) = some 1
      rw [show waitFrom (fun k => rnd k / 3) 1 0 0 = 1 from rfl, hone]
  · intro k
    constructor
    · have := (hrnd k).1
      positivity
    · have h2 := (hrnd k).2
      linarith

/-- Witness for the amended C4 with a zero jitter draw and two retries. -/
theorem backoff_policy_witness :
    (∀ k, 0 ≤ zeroRnd k ∧ zeroRnd k < 1) ∧
    ((waitFrom (fun k => zeroRnd k / 3) 1 0 0 = 1 ∧
      ∀ k, waitFrom (fun k => zeroRnd k / 3) 1 0 (k + 1)
        = 2 * waitFrom (fun k => zeroRnd k / 3) 1 0 k + zeroRnd k / 3) ∧
    (∀ k a,
      (sendContextAndProcessResponse failingSend zeroRnd 2 []).sleeps[k]?
        = some a →
      a = sleptSeconds (waitFrom (fun k => zeroRnd k / 3) 1 0 k)) ∧
    ((sendContextAndProcessResponse failingSend zeroRnd 2 []).sleeps[0]?
        = Option.none ∨
      (sendContextAndProcessResponse failingSend zeroRnd 2 []).sleeps[0]?
        = some 1) ∧
    (∀ k, 0 ≤ zeroRnd k / 3 ∧ zeroRnd k / 3 < 1 / 3)) :=
  ⟨fun _ => ⟨le_refl 0, zero_lt_one⟩,
   backoff_policy failingSend zeroRnd 2 [] (fun _ => ⟨le_refl 0, zero_lt_one⟩)⟩

/-- Decoding inverts encoding on a single message. -/
theorem decodeMessage_encodeMessage (m : Message) :
    decodeMessage (encodeMessage m) = Except.ok m := rfl

/-- Decoding inverts encoding on a whole context document. -/
theorem decodeContext_encodeContext (C : List Message) :
    decodeContext (encodeContext C) = Except.ok C := by
  show (C.map encodeMessage).mapM decodeMessage = Except.ok C
  induction C with
  | nil => rfl
  | cons m rest ih =>
    rw [List.map_cons, List.mapM_cons, decodeMessage_encodeMessage m, ih]
    rfl

/-- The role-validation loop accepts a list of valid-role messages. -/
theorem firstInvalidRole_none (msgs : List Message)
    (h : ∀ x ∈ msgs, isRoleValid x.role = true) :
    ∀ idx, firstInvalidRole idx msgs = Option.none := by
  induction msgs with
  | nil => intro idx; rfl
  | cons m rest ih =>
    intro idx
    have hm : isRoleValid m.role = true := h m (List.mem_cons_self _ _)
    have hrest := ih (fun x hx => h x (List.mem_cons_of_mem _ hx))
    simp [firstInvalidRole, hm, hrest]

/-- The role-validation loop reports the index of the first invalid role. -/
theorem firstInvalidRole_append (pre : List Message) (bad : Message)
    (rest : List Message) (hpre : ∀ m ∈ pre, isRoleValid m.role = true)
    (hbad : isRoleValid bad.role = false) :
    ∀ idx, firstInvalidRole idx (pre ++ bad :: rest)
      = some (idx + pre.length) := by
  induction pre with
  | nil => intro idx; simp [firstInvalidRole, hbad]
  | cons p ps ih =>
    intro idx
    have hp : isRoleValid p.role = true := hpre p (List.mem_cons_self _ _)
    have hps := ih (fun x hx => hpre x (List.mem_cons_of_mem _ hx)) (idx + 1)
    simp only [List.cons_append, firstInvalidRole, hp, if_true,
      List.append_eq, List.length_cons, hps]
    congr 1
    omega

/-- Claim C6: reading back the file produced by serializing any context `C`
(whose roles lie in the closed role enumeration of the data model) yields
exactly `C`: same number of messages, same order, role and content fields
preserved. -/
theorem context_file_roundtrip (fs : String → Option Json) (path : String)
    (C : List Message) (hroles : ∀ m ∈ C, isRoleValid m.role = true) :
    parseContextFile (writeContextFile fs path C) path = Except.ok C := by
  unfold parseContextFile writeContextFile
  rw [if_pos rfl]
  dsimp only
  rw [decodeContext_encodeContext C]
  dsimp only
  rw [firstInvalidRole_none C hroles 0]

/-- Witness for C6 on a three-message context. -/
theorem context_file_roundtrip_witness :
    (∀ m ∈ sampleContext, isRoleValid m.role = true) ∧
    parseContextFile (writeContextFile emptyFs "ctx.json" sampleContext)
      "ctx.json" = Except.ok sampleContext :=
  ⟨by decide,
   context_file_roundtrip emptyFs "ctx.json" sampleContext (by decide)⟩

/-- Claim C9: a stored file whose records are well-formed but whose first
invalid role sits at zero-based index `len(pre)` makes `parseContextFile`
fail with an invalid-role error carrying that index, and the `replacefrom`
command fed that path reports the same error and leaves the state
unchanged. -/
theorem invalid_role_report (fs : String → Option Json) (path : String)
    (doc : Json) (pre rest : List Message) (bad : Message) (s : AppState)
    (hfile : fs path = some doc)
    (hdec : decodeContext doc = Except.ok (pre ++ bad :: rest))
    (hpre : ∀ m ∈ pre, isRoleValid m.role = true)
    (hbad : isRoleValid bad.role = false)
    (hpath : path ≠ "") :
    parseContextFile fs path
      = Except.error (ContextFileError.invalidRole path pre.length) ∧
    replaceFromCommand fs s path
      = (s, some (ContextFileError.invalidRole path pre.length)) := by
  have hparse : parseContextFile fs path
      = Except.error (ContextFileError.invalidRole path pre.length) := by
    unfold parseContextFile
    rw [hfile]
    dsimp only
    rw [hdec]
    dsimp only
    rw [firstInvalidRole_append pre bad rest hpre hbad 0]
    rw [Nat.zero_add]
  refine ⟨hparse, ?_⟩
  unfold replaceFromCommand readContextFileFromArguments
  rw [if_neg hpath, hparse]

/-- A well-formed document whose third record has the invalid role
`narrator`. -/
def invalidDoc : Json :=
  encodeContext [⟨"system", "a"⟩, ⟨"user", "b"⟩, ⟨"narrator", "c"⟩]

/-- A file system holding `invalidDoc` at `bad.json`. -/
def badFs : String → Option Json :=
  fun p => if p = "bad.json" then some invalidDoc else Option.none

/-- Witness for C9: the spec scenario, an invalid role in the third entry
is reported at index 2 and the state is unchanged. -/
theorem invalid_role_report_witness :
    parseContextFile badFs "bad.json"
      = Except.error (ContextFileError.invalidRole "bad.json" 2) ∧
    replaceFromCommand badFs sampleState "bad.json"
      = (sampleState, some (ContextFileError.invalidRole "bad.json" 2)) :=
  invalid_role_report badFs "bad.json" invalidDoc
    [⟨"system", "a"⟩, ⟨"user", "b"⟩] [] ⟨"narrator", "c"⟩ sampleState
    rfl rfl (by decide) (by decide) (by decide)

end Gptrepl
